import Mathlib

/-!
Shallow embedding of the Weapon-Handling-Toolkit repository
(Source/WeaponHandlingModule), covering the fire-control state machine
(ARangedWeapon / UWeaponHandlingComponent), the two-stage hit detection
(ScreenTrace / WeaponTrace in both variants), the spread-shot fan-out
(ExecuteWeaponFire in both variants) and weapon dropping (ABaseWeapon::Fall).

Engine services (line traces, screen deprojection, vector normalisation,
random-number generation, timers) are modelled as explicit parameters; actors
are identified by natural numbers; machine floats are embedded exactly
(timer durations as rationals, geometric quantities as integers, which the
claims never require to be fractional); the uint8 / uint32 burst counters carry their wrap-around
explicitly.  An unchecked null-pointer dereference in the source is modelled
by the `TRes.crash` outcome.
-/

/-- Engine FVector with exact rational coordinates. -/
structure FVector where
  x : Int
  y : Int
  z : Int
deriving DecidableEq

/-- Componentwise vector addition. -/
def FVector.add (a b : FVector) : FVector := ⟨a.x + b.x, a.y + b.y, a.z + b.z⟩

/-- Componentwise vector subtraction. -/
def FVector.sub (a b : FVector) : FVector := ⟨a.x - b.x, a.y - b.y, a.z - b.z⟩

/-- Scalar multiplication of a vector. -/
def FVector.smul (a : FVector) (q : Int) : FVector := ⟨a.x * q, a.y * q, a.z * q⟩

/-- Collision channels used by the repository's traces: the aim and barrel
traces of the weapon classes use ECC_Visibility; the component's barrel trace
passes ECC_Vehicle (WeaponHandlingComponent.cpp line 129). -/
inductive ECollisionChannel
  | ECC_Visibility
  | ECC_Vehicle
deriving DecidableEq

/-- One engine line-trace request: start and end point, ignored actors
(FCollisionQueryParams), and collision channel. -/
structure TraceQuery where
  start : FVector
  stop : FVector
  ignored : List Nat
  channel : ECollisionChannel
deriving DecidableEq

/-- A blocking hit returned by the engine: impact point and hit actor. -/
structure HitData where
  point : FVector
  actor : Nat
deriving DecidableEq

/-- The physics world, abstracted as the engine's answer to each line trace. -/
def World : Type := TraceQuery → Option HitData

/-- Engine FHitResult as observed by this code after a LineTraceSingleByChannel:
on a miss the engine leaves ImpactPoint zeroed, records the requested TraceEnd
and a null actor. -/
structure FHitResult where
  bBlockingHit : Bool
  ImpactPoint : FVector
  TraceStart : FVector
  TraceEnd : FVector
  HitActor : Option Nat
deriving DecidableEq

/-- GetWorld()->LineTraceSingleByChannel, writing the out-parameter hit result. -/
def lineTrace (w : World) (q : TraceQuery) : FHitResult :=
  match w q with
  | some h => ⟨true, h.point, q.start, q.stop, some h.actor⟩
  | none => ⟨false, ⟨0, 0, 0⟩, q.start, q.stop, none⟩

/-- Engine-side context consumed by the trace code.  `viewportSize = none`
models a missing GEngine->GameViewport (dereferenced without a check in both
ScreenTrace variants).  `deproject` is DeprojectScreenToWorld for a given
player controller; the engine returns failure for a null controller, which the
embeddings fold into a `none` deprojection result.  `getSafeNormal` is
FVector::GetSafeNormal.  `uninitLoc`/`uninitDir` stand for the indeterminate
contents of the uninitialised local FVectors in ARayCastWeapon::ScreenTrace,
which are used unchanged when the (unchecked) deprojection fails. -/
structure EngineEnv where
  viewportSize : Option (Int × Int)
  playerController0 : Option Nat
  deproject : Nat → Int × Int → Option (FVector × FVector)
  getSafeNormal : FVector → FVector
  uninitLoc : FVector
  uninitDir : FVector

/-- The weapon's skeletal mesh, reduced to the result of looking up the barrel
socket (GetSocketByName / GetSocketTransform): `none` when the socket is
missing or invalid. -/
structure MeshModel where
  barrelSocket : Option FVector
deriving DecidableEq

/-- Owning ACharacter, reduced to its (possibly null) player controller. -/
structure CharacterModel where
  controller : Option Nat
deriving DecidableEq

/-- Result of running code that may hit an unchecked null dereference. -/
inductive TRes (α : Type)
  | crash
  | res (val : α)
deriving DecidableEq

/-- EWeaponType of WeaponHandlingComponent.h. -/
inductive EWeaponType
  | EWT_Raycast
  | EWT_Projectile
deriving DecidableEq

/-- EFiringMode of WeaponHandlingComponent.h. -/
inductive EFiringModeC
  | EFM_Single
  | EFM_Burst
  | EFM_Automatic
deriving DecidableEq

/-- EShotPattern of WeaponHandlingComponent.h (Cluster and MultiShot are
reserved: their switch cases are empty in the source). -/
inductive EShotPatternC
  | ESP_Single
  | ESP_Spread
  | ESP_Cluster
  | ESP_MultiShot
deriving DecidableEq

/-- EFiringMode of RangedWeapon.h. -/
inductive EFiringModeW
  | EFM_Single
  | EFM_Burst
  | EFM_Automatic
deriving DecidableEq

/-- EShotPattern of RangedWeapon.h. -/
inductive EShotPatternW
  | ESP_Single
  | ESP_Spread
deriving DecidableEq

/-- FWeaponData of RangedWeapon.h: the behaviour-relevant configuration fields
(the particle/sound/animation asset pointers and ammo counters, which do not
influence any claim, are omitted).  MaxBurstShotCount is a uint8 in the
source; PelletsPerBullet an int. -/
structure FWeaponData where
  FiringMode : EFiringModeW
  WeaponFireRate : Rat
  MaxBurstShotCount : Nat
  BurstShotCooldown : Rat
  WeaponRange : Int
  WeaponDamage : Rat
  bShouldPerformWeaponTraceTest : Bool
  ShotPattern : EShotPatternW
  PelletsPerBullet : Nat
  MinimumSpreadRange : Int
  MaximumSpreadRange : Int
deriving DecidableEq

/-- The editor-exposed configuration fields of UWeaponHandlingComponent
(WeaponHandlingComponent.h); asset pointers are again omitted.
MaxBurstShotCount is a uint32 in the source; PallatesPerBullet an int. -/
structure WHCConfig where
  WeaponType : EWeaponType
  FiringMode : EFiringModeC
  WeaponFireRate : Rat
  MaxBurstShotCount : Nat
  BurstShotCooldown : Rat
  WeaponRange : Int
  WeaponDamage : Rat
  bShouldPerformWeaponTraceTest : Bool
  ShotPattern : EShotPatternC
  PallatesPerBullet : Nat
  MinimumSpreadRange : Int
  MaximumSpreadRange : Int
deriving DecidableEq

/-- The private fire-control flags and counter shared (field for field) by
ARangedWeapon and UWeaponHandlingComponent: bShouldFireWeapon,
bShouldBurstShotCooldown, CurrentBurstShotCount. -/
structure FireControlState where
  bShouldFireWeapon : Bool
  bShouldBurstShotCooldown : Bool
  CurrentBurstShotCount : Nat
deriving DecidableEq

/-- Constructor state of both classes: ready, no burst cooldown, count 0. -/
def initFireControl : FireControlState := ⟨true, false, 0⟩

/-- The two timer handles held by each class. -/
inductive TimerHandleId
  | WeaponFireTimer
  | WeaponBurstCooldownTimer
deriving DecidableEq

/-- One GetTimerManager().SetTimer call: which handle, and the delay passed. -/
structure TimerSet where
  handle : TimerHandleId
  duration : Rat
deriving DecidableEq

/-- Observable result of one attack request on the fire-control machine: the
new flag state, the number of fire events (ExecuteWeaponFire invocations,
0 or 1), and the timers scheduled during the call, in program order. -/
structure AttackOutput where
  state : FireControlState
  fired : Nat
  timers : List TimerSet
deriving DecidableEq

/-- ARangedWeapon::ExecuteSingleFire (RangedWeapon.cpp lines 201-206): fires
once when ready and clears bShouldFireWeapon; no timer is scheduled. -/
def ARangedWeapon.executeSingleFire (wd : FWeaponData) (s : FireControlState) :
    AttackOutput :=
  if s.bShouldFireWeapon then
    ⟨⟨false, s.bShouldBurstShotCooldown, s.CurrentBurstShotCount⟩, 1, []⟩
  else ⟨s, 0, []⟩

/-- ARangedWeapon::ExecuteBurstFire (RangedWeapon.cpp lines 170-188).  The
uint8 counter increments modulo 2^8; on reaching MaxBurstShotCount it resets
and the burst-cooldown timer is started, then the fire-rate timer is started
in every accepted call. -/
def ARangedWeapon.executeBurstFire (wd : FWeaponData) (s : FireControlState) :
    AttackOutput :=
  if s.bShouldFireWeapon && !s.bShouldBurstShotCooldown then
    let c := (s.CurrentBurstShotCount + 1) % 256
    if wd.MaxBurstShotCount ≤ c then
      ⟨⟨false, true, 0⟩, 1,
        [⟨TimerHandleId.WeaponBurstCooldownTimer, wd.BurstShotCooldown⟩,
         ⟨TimerHandleId.WeaponFireTimer, wd.WeaponFireRate⟩]⟩
    else
      ⟨⟨false, s.bShouldBurstShotCooldown, c⟩, 1,
        [⟨TimerHandleId.WeaponFireTimer, wd.WeaponFireRate⟩]⟩
  else ⟨s, 0, []⟩

/-- ARangedWeapon::ExecuteAutomaticFire (RangedWeapon.cpp lines 219-226). -/
def ARangedWeapon.executeAutomaticFire (wd : FWeaponData)
    (s : FireControlState) : AttackOutput :=
  if s.bShouldFireWeapon then
    ⟨⟨false, s.bShouldBurstShotCooldown, s.CurrentBurstShotCount⟩, 1,
      [⟨TimerHandleId.WeaponFireTimer, wd.WeaponFireRate⟩]⟩
  else ⟨s, 0, []⟩

/-- ARangedWeapon::LaunchAttack (RangedWeapon.cpp lines 238-251): dispatch on
the configured firing mode. -/
def ARangedWeapon.launchAttack (wd : FWeaponData) (s : FireControlState) :
    AttackOutput :=
  match wd.FiringMode with
  | EFiringModeW.EFM_Single => ARangedWeapon.executeSingleFire wd s
  | EFiringModeW.EFM_Burst => ARangedWeapon.executeBurstFire wd s
  | EFiringModeW.EFM_Automatic => ARangedWeapon.executeAutomaticFire wd s

/-- ARangedWeapon::ResetShouldFireWeapon (RangedWeapon.cpp lines 127-131). -/
def ARangedWeapon.resetShouldFireWeapon (s : FireControlState) :
    FireControlState :=
  if !s.bShouldFireWeapon then
    ⟨true, s.bShouldBurstShotCooldown, s.CurrentBurstShotCount⟩
  else s

/-- ARangedWeapon::ResetBurstShotCooldown (RangedWeapon.cpp lines 140-144). -/
def ARangedWeapon.resetBurstShotCooldown (s : FireControlState) :
    FireControlState :=
  if s.bShouldBurstShotCooldown then
    ⟨s.bShouldFireWeapon, false, s.CurrentBurstShotCount⟩
  else s

/-- ARangedWeapon::ResetShouldFireSingleShot (RangedWeapon.cpp lines 153-157).
Its documentation says it is called automatically by the fire-rate timer, but
no SetTimer call in the repository ever targets it. -/
def ARangedWeapon.resetShouldFireSingleShot (wd : FWeaponData)
    (s : FireControlState) : FireControlState :=
  if !s.bShouldFireWeapon && wd.FiringMode == EFiringModeW.EFM_Single then
    ⟨true, s.bShouldBurstShotCooldown, s.CurrentBurstShotCount⟩
  else s

/-- UWeaponHandlingComponent::FireWeapon (WeaponHandlingComponent.cpp lines
262-290): the EFM_Single case is an empty break; Burst and Automatic mirror
the ARangedWeapon logic with a uint32 counter. -/
def UWeaponHandlingComponent.fireWeapon (cfg : WHCConfig)
    (s : FireControlState) : AttackOutput :=
  match cfg.FiringMode with
  | EFiringModeC.EFM_Single => ⟨s, 0, []⟩
  | EFiringModeC.EFM_Burst =>
    if s.bShouldFireWeapon && !s.bShouldBurstShotCooldown then
      let c := (s.CurrentBurstShotCount + 1) % 4294967296
      if cfg.MaxBurstShotCount ≤ c then
        ⟨⟨false, true, 0⟩, 1,
          [⟨TimerHandleId.WeaponBurstCooldownTimer, cfg.BurstShotCooldown⟩,
           ⟨TimerHandleId.WeaponFireTimer, cfg.WeaponFireRate⟩]⟩
      else
        ⟨⟨false, s.bShouldBurstShotCooldown, c⟩, 1,
          [⟨TimerHandleId.WeaponFireTimer, cfg.WeaponFireRate⟩]⟩
    else ⟨s, 0, []⟩
  | EFiringModeC.EFM_Automatic =>
    if s.bShouldFireWeapon then
      ⟨⟨false, s.bShouldBurstShotCooldown, s.CurrentBurstShotCount⟩, 1,
        [⟨TimerHandleId.WeaponFireTimer, cfg.WeaponFireRate⟩]⟩
    else ⟨s, 0, []⟩

/-- UWeaponHandlingComponent::ResetShouldFireWeapon (lines 236-240). -/
def UWeaponHandlingComponent.resetShouldFireWeapon (s : FireControlState) :
    FireControlState :=
  if !s.bShouldFireWeapon then
    ⟨true, s.bShouldBurstShotCooldown, s.CurrentBurstShotCount⟩
  else s

/-- UWeaponHandlingComponent::ResetBurstShotCooldown (lines 246-250). -/
def UWeaponHandlingComponent.resetBurstShotCooldown (s : FireControlState) :
    FireControlState :=
  if s.bShouldBurstShotCooldown then
    ⟨s.bShouldFireWeapon, false, s.CurrentBurstShotCount⟩
  else s

/-- Events driving the fire-control machine: an input attack request, expiry
of the fire-rate timer (bound to ResetShouldFireWeapon) and expiry of the
burst-cooldown timer (bound to ResetBurstShotCooldown). -/
inductive FCEvent
  | attack
  | fireTimerExpiry
  | burstCooldownExpiry
deriving DecidableEq

/-- One fire-control step of ARangedWeapon. -/
def ARangedWeapon.fcStep (wd : FWeaponData) (s : FireControlState) :
    FCEvent → AttackOutput
  | FCEvent.attack => ARangedWeapon.launchAttack wd s
  | FCEvent.fireTimerExpiry => ⟨ARangedWeapon.resetShouldFireWeapon s, 0, []⟩
  | FCEvent.burstCooldownExpiry =>
    ⟨ARangedWeapon.resetBurstShotCooldown s, 0, []⟩

/-- Run a sequence of fire-control events on ARangedWeapon. -/
def ARangedWeapon.fcRun (wd : FWeaponData) (s : FireControlState) :
    List FCEvent → FireControlState
  | [] => s
  | e :: es => ARangedWeapon.fcRun wd (ARangedWeapon.fcStep wd s e).state es

/-- Number of accepted attack requests (= emitted fire events) along a run. -/
def ARangedWeapon.acceptedCount (wd : FWeaponData) (s : FireControlState) :
    List FCEvent → Nat
  | [] => 0
  | e :: es =>
    (ARangedWeapon.fcStep wd s e).fired +
      ARangedWeapon.acceptedCount wd (ARangedWeapon.fcStep wd s e).state es

/-- One fire-control step of UWeaponHandlingComponent. -/
def UWeaponHandlingComponent.fcStep (cfg : WHCConfig) (s : FireControlState) :
    FCEvent → AttackOutput
  | FCEvent.attack => UWeaponHandlingComponent.fireWeapon cfg s
  | FCEvent.fireTimerExpiry =>
    ⟨UWeaponHandlingComponent.resetShouldFireWeapon s, 0, []⟩
  | FCEvent.burstCooldownExpiry =>
    ⟨UWeaponHandlingComponent.resetBurstShotCooldown s, 0, []⟩

/-- Run a sequence of fire-control events on UWeaponHandlingComponent. -/
def UWeaponHandlingComponent.fcRun (cfg : WHCConfig) (s : FireControlState) :
    List FCEvent → FireControlState
  | [] => s
  | e :: es =>
    UWeaponHandlingComponent.fcRun cfg
      (UWeaponHandlingComponent.fcStep cfg s e).state es

/-- Result of a ScreenTrace/WeaponTrace call in the component variant: the
boolean return value, the FHitResult out-parameter, the TraceEndLocation
out-parameter, the index of the next unconsumed random draw, and the list of
line-trace requests issued (in program order). -/
structure ScreenTraceOut where
  ret : Bool
  hit : FHitResult
  endLoc : FVector
  rngIdx : Nat
  log : List TraceQuery
deriving DecidableEq

/-- UWeaponHandlingComponent::ScreenTrace (WeaponHandlingComponent.cpp lines
49-96).  GEngine->GameViewport is dereferenced without a check (crash when
missing).  DeprojectScreenToWorld is the engine call; it fails gracefully for
a null player controller.  On deprojection failure the function returns false
with both out-parameters untouched.  For ESP_Spread the end point receives
three fresh FMath::RandRange draws (X, Y, Z); the reserved patterns leave the
end location unwritten before tracing.  `rng` is the stream of values returned
by successive RandRange(MinimumSpreadRange, MaximumSpreadRange) calls, `ri`
the index of the next draw. -/
def UWeaponHandlingComponent.screenTrace (cfg : WHCConfig) (env : EngineEnv)
    (w : World) (rng : Nat → Int) (ignored : List Nat) (hrIn : FHitResult)
    (endIn : FVector) (ri : Nat) : TRes ScreenTraceOut :=
  match env.viewportSize with
  | none => TRes.crash
  | some vpsz =>
    match (match env.playerController0 with
           | none => none
           | some pc => env.deproject pc (vpsz.1 / 2, vpsz.2 / 2)) with
    | none => TRes.res ⟨false, hrIn, endIn, ri, []⟩
    | some sd =>
      let startLoc := sd.1
      let dirv := sd.2
      let pair :=
        match cfg.ShotPattern with
        | EShotPatternC.ESP_Single =>
          (startLoc.add (dirv.smul cfg.WeaponRange), ri)
        | EShotPatternC.ESP_Spread =>
          (startLoc.add ((dirv.smul cfg.WeaponRange).add
            ⟨rng ri, rng (ri + 1), rng (ri + 2)⟩), ri + 3)
        | EShotPatternC.ESP_Cluster => (endIn, ri)
        | EShotPatternC.ESP_MultiShot => (endIn, ri)
      let q : TraceQuery :=
        ⟨startLoc, pair.1, ignored, ECollisionChannel.ECC_Visibility⟩
      let hr := lineTrace w q
      if hr.bBlockingHit then TRes.res ⟨true, hr, hr.ImpactPoint, pair.2, [q]⟩
      else TRes.res ⟨false, hr, pair.1, pair.2, [q]⟩

/-- UWeaponHandlingComponent::WeaponTrace (WeaponHandlingComponent.cpp lines
110-137).  After the screen trace, the barrel socket returned by
GetSocketByName is dereferenced without a null check (crash when missing); the
second trace starts at the barrel, runs along GetSafeNormal(barrel location)
(the normalised barrel position, not the direction to the target), passes no
FCollisionQueryParams (empty ignore list) and uses channel ECC_Vehicle. -/
def UWeaponHandlingComponent.weaponTrace (cfg : WHCConfig) (env : EngineEnv)
    (w : World) (rng : Nat → Int) (ignored : List Nat) (mesh : MeshModel)
    (hrIn : FHitResult) (endIn : FVector) (ri : Nat) : TRes ScreenTraceOut :=
  match UWeaponHandlingComponent.screenTrace cfg env w rng ignored hrIn endIn
      ri with
  | TRes.crash => TRes.crash
  | TRes.res o1 =>
    match mesh.barrelSocket with
    | none => TRes.crash
    | some bloc =>
      let dirv := env.getSafeNormal bloc
      let e2 := bloc.add (dirv.smul cfg.WeaponRange)
      let q : TraceQuery := ⟨bloc, e2, [], ECollisionChannel.ECC_Vehicle⟩
      let hr := lineTrace w q
      if hr.bBlockingHit then
        TRes.res ⟨true, hr, hr.ImpactPoint, o1.rngIdx, o1.log ++ [q]⟩
      else TRes.res ⟨false, hr, e2, o1.rngIdx, o1.log ++ [q]⟩

/-- Result of UWeaponHandlingComponent::ExecuteWeaponFire: final hit result
and end location, next random index, all line-trace requests issued, and the
actors that received an ApplyDamage call (in order). -/
structure FireOut where
  hit : FHitResult
  endLoc : FVector
  rngIdx : Nat
  log : List TraceQuery
  damaged : List Nat
deriving DecidableEq

/-- UWeaponHandlingComponent::DamageActor (lines 164-170): damage is applied
only when the hit actor exists and implements IDamageInterface. -/
def UWeaponHandlingComponent.damageActor (damageable : Nat → Bool)
    (hr : FHitResult) : List Nat :=
  match hr.HitActor with
  | some a => if damageable a then [a] else []
  | none => []

/-- One iteration of the ESP_Spread pellet loop in
UWeaponHandlingComponent::ExecuteWeaponFire (lines 208-217): trace (barrel
variant when bShouldPerformWeaponTraceTest), spawn trail, apply damage. -/
def UWeaponHandlingComponent.pelletStep (cfg : WHCConfig) (env : EngineEnv)
    (w : World) (rng : Nat → Int) (ignored : List Nat) (mesh : MeshModel)
    (damageable : Nat → Bool) (hr : FHitResult) (endL : FVector) (ri : Nat) :
    TRes (FHitResult × FVector × Nat × List TraceQuery × List Nat) :=
  match (if cfg.bShouldPerformWeaponTraceTest then
           UWeaponHandlingComponent.weaponTrace cfg env w rng ignored mesh hr
             endL ri
         else
           UWeaponHandlingComponent.screenTrace cfg env w rng ignored hr endL
             ri) with
  | TRes.crash => TRes.crash
  | TRes.res o =>
    TRes.res (o.hit, o.endLoc, o.rngIdx, o.log,
      UWeaponHandlingComponent.damageActor damageable o.hit)

/-- The ESP_Spread loop of UWeaponHandlingComponent::ExecuteWeaponFire,
iterated over the remaining pellet count; hit result and end location are
shared out-parameters threaded through the iterations. -/
def UWeaponHandlingComponent.spreadFire (cfg : WHCConfig) (env : EngineEnv)
    (w : World) (rng : Nat → Int) (ignored : List Nat) (mesh : MeshModel)
    (damageable : Nat → Bool) :
    Nat → FHitResult → FVector → Nat → TRes FireOut
  | 0, hr, e, ri => TRes.res ⟨hr, e, ri, [], []⟩
  | n + 1, hr, e, ri =>
    match UWeaponHandlingComponent.pelletStep cfg env w rng ignored mesh
        damageable hr e ri with
    | TRes.crash => TRes.crash
    | TRes.res o1 =>
      match UWeaponHandlingComponent.spreadFire cfg env w rng ignored mesh
          damageable n o1.1 o1.2.1 o1.2.2.1 with
      | TRes.crash => TRes.crash
      | TRes.res o2 =>
        TRes.res ⟨o2.hit, o2.endLoc, o2.rngIdx, o1.2.2.2.1 ++ o2.log,
          o1.2.2.2.2 ++ o2.damaged⟩

/-- UWeaponHandlingComponent::ExecuteWeaponFire (WeaponHandlingComponent.cpp
lines 183-230), restricted to its observable trace/damage behaviour (muzzle
flash, montage, debug lines and sounds are cosmetic).  The projectile weapon
type and the reserved shot patterns are empty cases in the source. -/
def UWeaponHandlingComponent.executeWeaponFire (cfg : WHCConfig)
    (env : EngineEnv) (w : World) (rng : Nat → Int) (ignored : List Nat)
    (mesh : MeshModel) (damageable : Nat → Bool) (hrIn : FHitResult)
    (endIn : FVector) (ri : Nat) : TRes FireOut :=
  match cfg.WeaponType with
  | EWeaponType.EWT_Projectile => TRes.res ⟨hrIn, endIn, ri, [], []⟩
  | EWeaponType.EWT_Raycast =>
    match cfg.ShotPattern with
    | EShotPatternC.ESP_Single =>
      (match UWeaponHandlingComponent.pelletStep cfg env w rng ignored mesh
          damageable hrIn endIn ri with
       | TRes.crash => TRes.crash
       | TRes.res o => TRes.res ⟨o.1, o.2.1, o.2.2.1, o.2.2.2.1, o.2.2.2.2⟩)
    | EShotPatternC.ESP_Spread =>
      UWeaponHandlingComponent.spreadFire cfg env w rng ignored mesh
        damageable cfg.PallatesPerBullet hrIn endIn ri
    | EShotPatternC.ESP_Cluster => TRes.res ⟨hrIn, endIn, ri, [], []⟩
    | EShotPatternC.ESP_MultiShot => TRes.res ⟨hrIn, endIn, ri, [], []⟩

/-- ARayCastWeapon::ScreenTrace (RayCastWeapon.cpp lines 121-147).
GEngine->GameViewport and GetOwningCharacter() are dereferenced without
checks (crash when missing).  The DeprojectScreenToWorld return value is NOT
checked: on failure the trace proceeds with the uninitialised local vectors.
There is no shot-pattern branch and no random spread in this variant. -/
def ARayCastWeapon.screenTrace (wd : FWeaponData) (env : EngineEnv)
    (w : World) (owning : Option CharacterModel) (ignored : List Nat) :
    TRes (FHitResult × List TraceQuery) :=
  match env.viewportSize with
  | none => TRes.crash
  | some vpsz =>
    match owning with
    | none => TRes.crash
    | some ch =>
      let sd :=
        match (match ch.controller with
               | none => none
               | some pc => env.deproject pc (vpsz.1 / 2, vpsz.2 / 2)) with
        | some v => v
        | none => (env.uninitLoc, env.uninitDir)
      let q : TraceQuery :=
        ⟨sd.1, sd.1.add (sd.2.smul wd.WeaponRange), ignored,
          ECollisionChannel.ECC_Visibility⟩
      TRes.res (lineTrace w q, [q])

/-- ARayCastWeapon::WeaponTrace (RayCastWeapon.cpp lines 76-102).  If the
screen trace misses, or the barrel socket lookup fails (logged error), the
function returns false and the hit result keeps the screen-trace outcome.
Otherwise the second ray runs from the barrel towards the aim impact point,
extended by WeaponRange, with the same ignored-actor list, and its result
overwrites the hit result. -/
def ARayCastWeapon.weaponTrace (wd : FWeaponData) (env : EngineEnv)
    (w : World) (owning : Option CharacterModel) (mesh : MeshModel)
    (ignored : List Nat) : TRes (FHitResult × List TraceQuery) :=
  match ARayCastWeapon.screenTrace wd env w owning ignored with
  | TRes.crash => TRes.crash
  | TRes.res o1 =>
    if o1.1.bBlockingHit = false then TRes.res o1
    else
      match mesh.barrelSocket with
      | none => TRes.res o1
      | some bloc =>
        let dirv := env.getSafeNormal (o1.1.ImpactPoint.sub bloc)
        let tEnd := o1.1.ImpactPoint.add (dirv.smul wd.WeaponRange)
        let q : TraceQuery :=
          ⟨bloc, tEnd, ignored, ECollisionChannel.ECC_Visibility⟩
        TRes.res (lineTrace w q, o1.2 ++ [q])

/-- ARayCastWeapon::ShootWeapon (RayCastWeapon.cpp lines 52-61): cosmetic
Super call, then barrel-validated or plain screen trace depending on
bShouldPerformWeaponTraceTest; the boolean trace result is discarded. -/
def ARayCastWeapon.shootWeapon (wd : FWeaponData) (env : EngineEnv)
    (w : World) (owning : Option CharacterModel) (mesh : MeshModel)
    (ignored : List Nat) : TRes (FHitResult × List TraceQuery) :=
  if wd.bShouldPerformWeaponTraceTest then
    ARayCastWeapon.weaponTrace wd env w owning mesh ignored
  else
    ARayCastWeapon.screenTrace wd env w owning ignored

/-- The ESP_Spread loop of ARangedWeapon::ExecuteWeaponFire (RangedWeapon.cpp
lines 105-110): ShootWeapon is simply called PelletsPerBullet times on the
same shared hit-result out-parameter. -/
def ARangedWeapon.spreadLoop (wd : FWeaponData) (env : EngineEnv) (w : World)
    (owning : Option CharacterModel) (mesh : MeshModel)
    (ignored : List Nat) : Nat → FHitResult → TRes (FHitResult × List TraceQuery)
  | 0, hr => TRes.res (hr, [])
  | n + 1, hr =>
    match ARayCastWeapon.shootWeapon wd env w owning mesh ignored with
    | TRes.crash => TRes.crash
    | TRes.res o1 =>
      match ARangedWeapon.spreadLoop wd env w owning mesh ignored n o1.1 with
      | TRes.crash => TRes.crash
      | TRes.res o2 => TRes.res (o2.1, o1.2 ++ o2.2)

/-- ARangedWeapon::ExecuteWeaponFire (RangedWeapon.cpp lines 98-118) for a
raycast weapon: single shot, or PelletsPerBullet identical ShootWeapon calls
for the spread pattern (no damage is applied on this path; the fire sound is
cosmetic). -/
def ARangedWeapon.executeWeaponFireTrace (wd : FWeaponData) (env : EngineEnv)
    (w : World) (owning : Option CharacterModel) (mesh : MeshModel)
    (ignored : List Nat) (hrIn : FHitResult) :
    TRes (FHitResult × List TraceQuery) :=
  match wd.ShotPattern with
  | EShotPatternW.ESP_Single =>
    ARayCastWeapon.shootWeapon wd env w owning mesh ignored
  | EShotPatternW.ESP_Spread =>
    ARangedWeapon.spreadLoop wd env w owning mesh ignored wd.PelletsPerBullet
      hrIn

/-- State of an ABaseWeapon actor as far as Fall is concerned
(BaseWeapon.cpp lines 48-77). -/
structure BaseWeaponState where
  OwningCharacter : Option Nat
  meshAttached : Bool
  bShouldUsePhysicsSimulation : Bool
  simulatePhysics : Bool
  location : FVector
deriving DecidableEq

/-- ABaseWeapon::Fall (BaseWeapon.cpp lines 48-77), with an explicit fuel
bound on the self-recursion in the no-ground branch.  Returns the final actor
state and the number of Fall invocations performed.  The physics branch also
schedules an 8-second timer that later disables simulation; that deferred
callback is outside the call itself and not part of this state. -/
def ABaseWeapon.fallFuel (w : World) : Nat → BaseWeaponState →
    BaseWeaponState × Nat
  | 0, s => (s, 0)
  | n + 1, s =>
    let s1 : BaseWeaponState :=
      ⟨none, false, s.bShouldUsePhysicsSimulation, s.simulatePhysics,
        s.location⟩
    if s1.bShouldUsePhysicsSimulation then
      (⟨s1.OwningCharacter, s1.meshAttached, s1.bShouldUsePhysicsSimulation,
        true, s1.location⟩, 1)
    else
      match w ⟨s1.location, s1.location.sub ⟨0, 0, 5000⟩, [],
          ECollisionChannel.ECC_Visibility⟩ with
      | some h =>
        (⟨s1.OwningCharacter, s1.meshAttached, s1.bShouldUsePhysicsSimulation,
          s1.simulatePhysics, h.point⟩, 1)
      | none =>
        let s2 : BaseWeaponState :=
          ⟨s1.OwningCharacter, s1.meshAttached, true, s1.simulatePhysics,
            s1.location⟩
        let r := ABaseWeapon.fallFuel w n s2
        (r.1, r.2 + 1)

/-- Expected shape of a spread pellet's aim-trace request in the component
variant: the deprojected ray end offset by the three RandRange draws starting
at stream index k. -/
def whcSpreadQuery (startLoc dirv : FVector) (rg : Int) (ignored : List Nat)
    (rng : Nat → Int) (k : Nat) : TraceQuery :=
  ⟨startLoc, startLoc.add ((dirv.smul rg).add ⟨rng k, rng (k + 1), rng (k + 2)⟩),
    ignored, ECollisionChannel.ECC_Visibility⟩

/-- Modelled from the spec: "For pattern=Spread, run it pellets-per-shot
times, each time perturbing the initial aim ray by a uniformly random offset
within [spreadMin, spreadMax] on each axis independently."  The i-th pellet's
aim ray as the spec describes it: the unperturbed aim end offset by the i-th
triple of random draws.  Used only to compare the spec's wording against the
ARangedWeapon/ARayCastWeapon implementation, which has no perturbation. -/
def specSpreadPelletQuery (startLoc dirv : FVector) (rg : Int)
    (ignored : List Nat) (rng : Nat → Int) (i : Nat) : TraceQuery :=
  ⟨startLoc,
    startLoc.add ((dirv.smul rg).add
      ⟨rng (3 * i), rng (3 * i + 1), rng (3 * i + 2)⟩),
    ignored, ECollisionChannel.ECC_Visibility⟩

/-- Abstraction invariant tying the number of accepted attacks since the last
burst reset to the fire-control state: either the burst is still filling
(count equals the accepted attacks, no cooldown) or it has just completed
(count reset to zero, cooldown active). -/
def BurstInv (B a : Nat) (s : FireControlState) : Prop :=
  (a < B ∧ s.CurrentBurstShotCount = a ∧ s.bShouldBurstShotCooldown = false) ∨
  (a = B ∧ s.CurrentBurstShotCount = 0 ∧ s.bShouldBurstShotCooldown = true)

/-- C1: the claim says every firing mode schedules exactly one fire-interval
reset timer on an attack accepted while Ready.  Evaluating the code at firing
mode Single from the ready initial state: ARangedWeapon::ExecuteSingleFire
emits the fire event and clears bShouldFireWeapon but schedules NO timer
(the weapon never becomes Ready again), and UWeaponHandlingComponent's
EFM_Single branch is empty (no fire event, no state change, no timer). -/
theorem singleFire_schedules_no_reset_timer :
    ARangedWeapon.launchAttack
        ⟨EFiringModeW.EFM_Single, 1/5, 3, 1/2, 10000, 10, false,
          EShotPatternW.ESP_Single, 1, -150, 150⟩ initFireControl =
      ⟨⟨false, false, 0⟩, 1, []⟩ ∧
    UWeaponHandlingComponent.fireWeapon
        ⟨EWeaponType.EWT_Raycast, EFiringModeC.EFM_Single, 1/5, 3, 1/2, 10000,
          10, false, EShotPatternC.ESP_Single, 1, -150, 150⟩ initFireControl =
      ⟨initFireControl, 0, []⟩ := by
  exact ⟨rfl, rfl⟩

/-- C9: an attack request arriving while the weapon is not ready, or while a
burst cooldown is active in Burst mode, leaves the fire-control state of both
variants unchanged, emits no fire event and schedules no timer. -/
theorem not_ready_attack_noop (wd : FWeaponData) (cfg : WHCConfig)
    (s : FireControlState)
    (hw : s.bShouldFireWeapon = false ∨
      (wd.FiringMode = EFiringModeW.EFM_Burst ∧
        s.bShouldBurstShotCooldown = true))
    (hc : s.bShouldFireWeapon = false ∨
      (cfg.FiringMode = EFiringModeC.EFM_Burst ∧
        s.bShouldBurstShotCooldown = true)) :
    ARangedWeapon.launchAttack wd s = ⟨s, 0, []⟩ ∧
    UWeaponHandlingComponent.fireWeapon cfg s = ⟨s, 0, []⟩ := by
  constructor
  · rcases hw with h | ⟨hm, hcd⟩
    · cases hFM : wd.FiringMode <;>
        simp [ARangedWeapon.launchAttack, hFM,
          ARangedWeapon.executeSingleFire, ARangedWeapon.executeBurstFire,
          ARangedWeapon.executeAutomaticFire, h]
    · simp [ARangedWeapon.launchAttack, hm, ARangedWeapon.executeBurstFire,
        hcd]
  · rcases hc with h | ⟨hm, hcd⟩
    · cases hFM : cfg.FiringMode <;>
        simp [UWeaponHandlingComponent.fireWeapon, hFM, h]
    · simp [UWeaponHandlingComponent.fireWeapon, hm, hcd]

/-- Witness for the C9 theorem at a concrete not-ready state. -/
theorem not_ready_attack_noop_witness :
    ((⟨false, false, 0⟩ : FireControlState).bShouldFireWeapon = false) ∧
    ARangedWeapon.launchAttack
        ⟨EFiringModeW.EFM_Automatic, 1, 3, 1, 100, 10, false,
          EShotPatternW.ESP_Single, 1, -150, 150⟩ ⟨false, false, 0⟩ =
      ⟨⟨false, false, 0⟩, 0, []⟩ ∧
    UWeaponHandlingComponent.fireWeapon
        ⟨EWeaponType.EWT_Raycast, EFiringModeC.EFM_Automatic, 1, 3, 1, 100,
          10, false, EShotPatternC.ESP_Single, 1, -150, 150⟩
        ⟨false, false, 0⟩ =
      ⟨⟨false, false, 0⟩, 0, []⟩ := by
  refine ⟨rfl, ?_⟩
  exact not_ready_attack_noop _ _ _ (Or.inl rfl) (Or.inl rfl)

/-- When physics simulation is already selected, Fall finishes in one
invocation for any fuel bound of at least one. -/
theorem fall_physics_one_call (w : World) (s : BaseWeaponState)
    (h : s.bShouldUsePhysicsSimulation = true) :
    ∀ n : Nat, ABaseWeapon.fallFuel w (n + 1) s =
      (⟨none, false, true, true, s.location⟩, 1) := by
  intro n
  simp [ABaseWeapon.fallFuel, h]

/-- When physics is off and the ground probe hits, Fall snaps to the impact
point and finishes in one invocation. -/
theorem fall_ground_one_call (w : World) (s : BaseWeaponState) (h : HitData)
    (hphys : s.bShouldUsePhysicsSimulation = false)
    (hprobe : w ⟨s.location, s.location.sub ⟨0, 0, 5000⟩, [],
      ECollisionChannel.ECC_Visibility⟩ = some h) :
    ∀ n : Nat, ABaseWeapon.fallFuel w (n + 1) s =
      (⟨none, false, false, s.simulatePhysics, h.point⟩, 1) := by
  intro n
  simp [ABaseWeapon.fallFuel, hphys, hprobe]

/-- When physics is off and the ground probe finds nothing, Fall switches to
physics simulation and recurses exactly once, for two invocations total. -/
theorem fall_noground_two_calls (w : World) (s : BaseWeaponState)
    (hphys : s.bShouldUsePhysicsSimulation = false)
    (hprobe : w ⟨s.location, s.location.sub ⟨0, 0, 5000⟩, [],
      ECollisionChannel.ECC_Visibility⟩ = none) :
    ∀ n : Nat, ABaseWeapon.fallFuel w (n + 2) s =
      (⟨none, false, true, true, s.location⟩, 2) := by
  intro n
  have h1 := fall_physics_one_call w
    ⟨none, false, true, s.simulatePhysics, s.location⟩ rfl n
  show ABaseWeapon.fallFuel w (n + 1 + 1) s = _
  rw [ABaseWeapon.fallFuel]
  simp only [hphys, hprobe, Bool.false_eq_true, if_false]
  rw [h1]

/-- C10: ABaseWeapon::Fall always terminates: a fuel bound of two already
computes the fixed point, the number of Fall invocations is at most two, the
owning-character reference is cleared and the mesh detached in every case,
and in the non-physics branch a failed ground probe switches the weapon to
physics simulation and recurses exactly once (two invocations in total). -/
theorem fall_terminates (w : World) (s : BaseWeaponState) :
    (∀ n : Nat, ABaseWeapon.fallFuel w (n + 2) s = ABaseWeapon.fallFuel w 2 s) ∧
    (ABaseWeapon.fallFuel w 2 s).2 ≤ 2 ∧
    (ABaseWeapon.fallFuel w 2 s).1.OwningCharacter = none ∧
    (ABaseWeapon.fallFuel w 2 s).1.meshAttached = false ∧
    (s.bShouldUsePhysicsSimulation = false →
      w ⟨s.location, s.location.sub ⟨0, 0, 5000⟩, [],
          ECollisionChannel.ECC_Visibility⟩ = none →
      (ABaseWeapon.fallFuel w 2 s).2 = 2 ∧
      (ABaseWeapon.fallFuel w 2 s).1.bShouldUsePhysicsSimulation = true ∧
      (ABaseWeapon.fallFuel w 2 s).1.simulatePhysics = true) := by
  by_cases hphys : s.bShouldUsePhysicsSimulation = true
  · have h2 := fall_physics_one_call w s hphys 1
    refine ⟨?_, ?_, ?_, ?_, ?_⟩
    · intro n
      rw [fall_physics_one_call w s hphys (n + 1), h2]
    · rw [h2]
      exact Nat.le_succ 1
    · rw [h2]
    · rw [h2]
    · intro hfalse
      rw [hphys] at hfalse
      exact absurd hfalse (by decide)
  · have hphys2 : s.bShouldUsePhysicsSimulation = false := by
      simpa using hphys
    cases hprobe : w ⟨s.location, s.location.sub ⟨0, 0, 5000⟩, [],
        ECollisionChannel.ECC_Visibility⟩ with
    | some h =>
      have h2 := fall_ground_one_call w s h hphys2 hprobe 1
      refine ⟨?_, ?_, ?_, ?_, ?_⟩
      · intro n
        rw [fall_ground_one_call w s h hphys2 hprobe (n + 1), h2]
      · rw [h2]
        exact Nat.le_succ 1
      · rw [h2]
      · rw [h2]
      · intro _ hnone
        exact Option.noConfusion hnone
    | none =>
      have h2 := fall_noground_two_calls w s hphys2 hprobe 0
      refine ⟨?_, ?_, ?_, ?_, ?_⟩
      · intro n
        rw [fall_noground_two_calls w s hphys2 hprobe n, h2]
      · rw [h2]
      · rw [h2]
      · rw [h2]
      · intro _ _
        rw [h2]
        exact ⟨rfl, rfl, rfl⟩

/-- Witness for the C10 theorem: dropping a held weapon with physics disabled
over a bottomless world clears the owner and performs exactly two Fall calls. -/
theorem fall_terminates_witness :
    (ABaseWeapon.fallFuel (fun _ => none) 2
      ⟨some 5, true, false, false, ⟨0, 0, 0⟩⟩).1.OwningCharacter = none ∧
    (ABaseWeapon.fallFuel (fun _ => none) 2
      ⟨some 5, true, false, false, ⟨0, 0, 0⟩⟩).2 = 2 := by
  refine ⟨(fall_terminates (fun _ => none)
    ⟨some 5, true, false, false, ⟨0, 0, 0⟩⟩).2.2.1, ?_⟩
  exact ((fall_terminates (fun _ => none)
    ⟨some 5, true, false, false, ⟨0, 0, 0⟩⟩).2.2.2.2 rfl rfl).1

/-- C2: evaluation of both WeaponTrace variants.  In
UWeaponHandlingComponent::WeaponTrace the aim ray (from the camera at the
origin) hits actor 9 at (0,5,0), yet the barrel ray is cast from the barrel
(1,0,0) along GetSafeNormal of the barrel POSITION — ending at (11,0,0),
unrelated to the target — with an EMPTY ignore list on channel ECC_Vehicle,
and its hit on actor 7 (the excluded shooter) becomes the final outcome.  In
ARayCastWeapon::WeaponTrace, by contrast, the barrel ray runs from the barrel
(0,2,0) towards the aim impact (0,5,0) extended by the range, with the same
ignore list [7], and its closer impact (actor 11 at (0,4,0)) overrides the
aim outcome, exactly as the claim describes. -/
theorem component_weaponTrace_wrong_ray_eval :
    UWeaponHandlingComponent.weaponTrace
        ⟨EWeaponType.EWT_Raycast, EFiringModeC.EFM_Single, 1, 1, 1, 10, 10,
          true, EShotPatternC.ESP_Single, 1, -150, 150⟩
        ⟨some (800, 600), some 1, fun _ _ => some (⟨0, 0, 0⟩, ⟨0, 1, 0⟩),
          fun v => if v = ⟨1, 0, 0⟩ then ⟨1, 0, 0⟩ else v,
          ⟨0, 0, 0⟩, ⟨0, 0, 0⟩⟩
        (fun q =>
          if q.channel = ECollisionChannel.ECC_Vehicle then
            (if 7 ∈ q.ignored then none else some ⟨⟨6, 0, 0⟩, 7⟩)
          else (if q.start = ⟨0, 0, 0⟩ then some ⟨⟨0, 5, 0⟩, 9⟩ else none))
        (fun _ => 0) [7] ⟨some ⟨1, 0, 0⟩⟩
        ⟨false, ⟨0, 0, 0⟩, ⟨0, 0, 0⟩, ⟨0, 0, 0⟩, none⟩ ⟨0, 0, 0⟩ 0 =
      TRes.res ⟨true, ⟨true, ⟨6, 0, 0⟩, ⟨1, 0, 0⟩, ⟨11, 0, 0⟩, some 7⟩,
        ⟨6, 0, 0⟩, 0,
        [⟨⟨0, 0, 0⟩, ⟨0, 10, 0⟩, [7], ECollisionChannel.ECC_Visibility⟩,
         ⟨⟨1, 0, 0⟩, ⟨11, 0, 0⟩, [], ECollisionChannel.ECC_Vehicle⟩]⟩ ∧
    ARayCastWeapon.weaponTrace
        ⟨EFiringModeW.EFM_Single, 1, 3, 1, 10, 10, true,
          EShotPatternW.ESP_Single, 1, -150, 150⟩
        ⟨some (800, 600), some 1, fun _ _ => some (⟨0, 0, 0⟩, ⟨0, 1, 0⟩),
          fun v => if v = ⟨0, 3, 0⟩ then ⟨0, 1, 0⟩ else v,
          ⟨0, 0, 0⟩, ⟨0, 0, 0⟩⟩
        (fun q =>
          if q.start = ⟨0, 0, 0⟩ then some ⟨⟨0, 5, 0⟩, 9⟩
          else (if 11 ∈ q.ignored then none else some ⟨⟨0, 4, 0⟩, 11⟩))
        (some ⟨some 1⟩) ⟨some ⟨0, 2, 0⟩⟩ [7] =
      TRes.res (⟨true, ⟨0, 4, 0⟩, ⟨0, 2, 0⟩, ⟨0, 15, 0⟩, some 11⟩,
        [⟨⟨0, 0, 0⟩, ⟨0, 10, 0⟩, [7], ECollisionChannel.ECC_Visibility⟩,
         ⟨⟨0, 2, 0⟩, ⟨0, 15, 0⟩, [7], ECollisionChannel.ECC_Visibility⟩]) := by
  constructor
  · decide
  · decide

/-- C6 counterexample: with the barrel-trace test enabled and an otherwise
fully working aim ray, a missing barrel socket makes
UWeaponHandlingComponent::WeaponTrace dereference the null socket pointer
(modelled as a crash) instead of falling back to the aim-ray outcome. -/
theorem component_weaponTrace_missing_socket_crash :
    UWeaponHandlingComponent.weaponTrace
        ⟨EWeaponType.EWT_Raycast, EFiringModeC.EFM_Single, 1, 1, 1, 10, 10,
          true, EShotPatternC.ESP_Single, 1, -150, 150⟩
        ⟨some (800, 600), some 1, fun _ _ => some (⟨0, 0, 0⟩, ⟨0, 1, 0⟩),
          fun v => v, ⟨0, 0, 0⟩, ⟨0, 0, 0⟩⟩
        (fun q => if q.start = ⟨0, 0, 0⟩ then some ⟨⟨0, 5, 0⟩, 9⟩ else none)
        (fun _ => 0) [7] ⟨none⟩
        ⟨false, ⟨0, 0, 0⟩, ⟨0, 0, 0⟩, ⟨0, 0, 0⟩, none⟩ ⟨0, 0, 0⟩ 0 =
      TRes.crash := by
  decide

/-- C6 (amended): in the ARayCastWeapon variant a failed barrel-socket lookup
skips the barrel-trace stage entirely: WeaponTrace returns exactly what
ScreenTrace produced (the aim-ray outcome), for every configuration, engine
environment, world, owning character and ignore list; the shot itself is not
suppressed since the caller discards the boolean and keeps the hit result. -/
theorem rayCast_weaponTrace_missing_socket_fallback (wd : FWeaponData)
    (env : EngineEnv) (w : World) (owning : Option CharacterModel)
    (ignored : List Nat) :
    ARayCastWeapon.weaponTrace wd env w owning ⟨none⟩ ignored =
      ARayCastWeapon.screenTrace wd env w owning ignored := by
  unfold ARayCastWeapon.weaponTrace
  cases ARayCastWeapon.screenTrace wd env w owning ignored with
  | crash => rfl
  | res o1 =>
    by_cases hb : o1.1.bBlockingHit = false
    · simp [hb]
    · simp [hb]

/-- C7 counterexample: a missing game viewport is not a logged no-op: the
component resolver dereferences GEngine->GameViewport without a check and
crashes rather than reporting "no hit". -/
theorem component_screenTrace_missing_viewport_crash :
    UWeaponHandlingComponent.screenTrace
        ⟨EWeaponType.EWT_Raycast, EFiringModeC.EFM_Single, 1, 1, 1, 10, 10,
          false, EShotPatternC.ESP_Single, 1, -150, 150⟩
        ⟨none, some 1, fun _ _ => some (⟨0, 0, 0⟩, ⟨0, 1, 0⟩), fun v => v,
          ⟨0, 0, 0⟩, ⟨0, 0, 0⟩⟩
        (fun _ => none) (fun _ => 0) [7]
        ⟨false, ⟨0, 0, 0⟩, ⟨0, 0, 0⟩, ⟨0, 0, 0⟩, none⟩ ⟨0, 0, 0⟩ 0 =
      TRes.crash := by
  decide

/-- C7 (amended): failure behaviour of the two trace resolvers.  (1) When
screen-to-world deprojection fails (including a null player controller), the
component resolver returns false with both out-parameters untouched and
issues no trace — a graceful "no hit".  (2) A missing game viewport crashes
the component resolver.  (3) A missing owning character crashes the weapon
resolver.  (4) The weapon resolver never checks the deprojection result: on
failure it traces a ray built from the uninitialised local vectors. -/
theorem screenTrace_failure_paths (cfg : WHCConfig) (wd : FWeaponData)
    (w : World) (rng : Nat → Int) (ignored : List Nat) (hrIn : FHitResult)
    (endIn : FVector) (ri : Nat) (vpsz : Int × Int) (pcOpt : Option Nat)
    (pc : Nat) (nrm : FVector → FVector) (uL uD : FVector)
    (dp : Nat → Int × Int → Option (FVector × FVector)) :
    UWeaponHandlingComponent.screenTrace cfg
        ⟨some vpsz, pcOpt, fun _ _ => none, nrm, uL, uD⟩ w rng ignored hrIn
        endIn ri = TRes.res ⟨false, hrIn, endIn, ri, []⟩ ∧
    UWeaponHandlingComponent.screenTrace cfg ⟨none, pcOpt, dp, nrm, uL, uD⟩
        w rng ignored hrIn endIn ri = TRes.crash ∧
    ARayCastWeapon.screenTrace wd ⟨some vpsz, pcOpt, dp, nrm, uL, uD⟩ w none
        ignored = TRes.crash ∧
    ARayCastWeapon.screenTrace wd
        ⟨some vpsz, pcOpt, fun _ _ => none, nrm, uL, uD⟩ w (some ⟨some pc⟩)
        ignored =
      TRes.res (lineTrace w ⟨uL, uL.add (uD.smul wd.WeaponRange), ignored,
          ECollisionChannel.ECC_Visibility⟩,
        [⟨uL, uL.add (uD.smul wd.WeaponRange), ignored,
          ECollisionChannel.ECC_Visibility⟩]) := by
  refine ⟨?_, rfl, rfl, rfl⟩
  cases pcOpt <;> rfl

/-- C4 counterexample: in the ARangedWeapon/ARayCastWeapon path a Spread
attack with two pellets casts the SAME unperturbed aim ray twice — the trace
end stays at origin + direction * range for every pellet and is independent
of the random stream — whereas the spec's perturbation (modelled by
specSpreadPelletQuery, with every draw equal to 10, well inside
[-150, 150]) would end the first pellet's ray at (10, 20, 10). -/
theorem rayCast_spread_unperturbed :
    ARangedWeapon.executeWeaponFireTrace
        ⟨EFiringModeW.EFM_Single, 1, 3, 1, 10, 10, false,
          EShotPatternW.ESP_Spread, 2, -150, 150⟩
        ⟨some (800, 600), some 1, fun _ _ => some (⟨0, 0, 0⟩, ⟨0, 1, 0⟩),
          fun v => v, ⟨0, 0, 0⟩, ⟨0, 0, 0⟩⟩
        (fun _ => none) (some ⟨some 1⟩) ⟨some ⟨1, 0, 0⟩⟩ [7]
        ⟨false, ⟨0, 0, 0⟩, ⟨0, 0, 0⟩, ⟨0, 0, 0⟩, none⟩ =
      TRes.res (⟨false, ⟨0, 0, 0⟩, ⟨0, 0, 0⟩, ⟨0, 10, 0⟩, none⟩,
        [⟨⟨0, 0, 0⟩, ⟨0, 10, 0⟩, [7], ECollisionChannel.ECC_Visibility⟩,
         ⟨⟨0, 0, 0⟩, ⟨0, 10, 0⟩, [7], ECollisionChannel.ECC_Visibility⟩]) ∧
    specSpreadPelletQuery ⟨0, 0, 0⟩ ⟨0, 1, 0⟩ 10 [7] (fun _ => 10) 0 =
      ⟨⟨0, 0, 0⟩, ⟨10, 20, 10⟩, [7], ECollisionChannel.ECC_Visibility⟩ ∧
    (⟨⟨0, 0, 0⟩, ⟨0, 10, 0⟩, [7], ECollisionChannel.ECC_Visibility⟩ :
        TraceQuery) ≠
      ⟨⟨0, 0, 0⟩, ⟨10, 20, 10⟩, [7], ECollisionChannel.ECC_Visibility⟩ := by
  refine ⟨by decide, by decide, by decide⟩

/-- Splitting a range-indexed map at its head, with stride-3 indices. -/
theorem map_range_shift {α : Type} (g : Nat → α) (n ri : Nat) :
    (List.range (n + 1)).map (fun i => g (ri + 3 * i)) =
      g ri :: (List.range n).map (fun i => g (ri + 3 + 3 * i)) := by
  rw [List.range_succ_eq_map, List.map_cons, List.map_map]
  have h2 : List.map ((fun i => g (ri + 3 * i)) ∘ Nat.succ) (List.range n) =
      List.map (fun i => g (ri + 3 + 3 * i)) (List.range n) := by
    refine List.map_congr_left ?_
    intro i _
    show g (ri + 3 * (i + 1)) = g (ri + 3 + 3 * i)
    congr 1
    omega
  rw [h2]
  have h1 : ri + 3 * 0 = ri := by omega
  show g (ri + 3 * 0) :: _ = _
  rw [h1]

/-- Shape of one component ScreenTrace call under the Spread pattern when the
viewport, the player controller and the deprojection are all available: it
issues exactly the spread query built from the three RandRange draws at the
current stream position and consumes exactly those three draws. -/
theorem whc_screenTrace_spread_shape (cfg : WHCConfig) (w : World)
    (rng : Nat → Int) (ignored : List Nat) (vpsz : Int × Int) (pc : Nat)
    (dp : Nat → Int × Int → Option (FVector × FVector))
    (nrm : FVector → FVector) (uL uD : FVector) (startLoc dirv : FVector)
    (hdp : dp pc (vpsz.1 / 2, vpsz.2 / 2) = some (startLoc, dirv))
    (hpat : cfg.ShotPattern = EShotPatternC.ESP_Spread)
    (hr : FHitResult) (e : FVector) (ri : Nat) :
    ∃ b hr1 e1, UWeaponHandlingComponent.screenTrace cfg
        ⟨some vpsz, some pc, dp, nrm, uL, uD⟩ w rng ignored hr e ri =
      TRes.res ⟨b, hr1, e1, ri + 3,
        [whcSpreadQuery startLoc dirv cfg.WeaponRange ignored rng ri]⟩ := by
  unfold UWeaponHandlingComponent.screenTrace
  simp only [hdp, hpat, whcSpreadQuery]
  by_cases hb : (lineTrace w ⟨startLoc,
      startLoc.add ((dirv.smul cfg.WeaponRange).add
        ⟨rng ri, rng (ri + 1), rng (ri + 2)⟩), ignored,
      ECollisionChannel.ECC_Visibility⟩).bBlockingHit
  · exact ⟨true, _, _, by rw [if_pos hb]⟩
  · exact ⟨false, _, _, by rw [if_neg hb]⟩

/-- Shape of the component spread-fire loop: with the aim computable, n
pellets issue exactly n aim queries, pellet i perturbed by the draws at
stream positions ri+3i, ri+3i+1, ri+3i+2, consuming 3n draws in total and
applying damage at most once per pellet. -/
theorem whc_spreadFire_shape (cfg : WHCConfig) (w : World) (rng : Nat → Int)
    (ignored : List Nat) (mesh : MeshModel) (damageable : Nat → Bool)
    (vpsz : Int × Int) (pc : Nat)
    (dp : Nat → Int × Int → Option (FVector × FVector))
    (nrm : FVector → FVector) (uL uD : FVector) (startLoc dirv : FVector)
    (hdp : dp pc (vpsz.1 / 2, vpsz.2 / 2) = some (startLoc, dirv))
    (hpat : cfg.ShotPattern = EShotPatternC.ESP_Spread)
    (htt : cfg.bShouldPerformWeaponTraceTest = false) :
    ∀ (n : Nat) (hr : FHitResult) (e : FVector) (ri : Nat),
    ∃ hrF eF ds, UWeaponHandlingComponent.spreadFire cfg
        ⟨some vpsz, some pc, dp, nrm, uL, uD⟩ w rng ignored mesh damageable n
        hr e ri =
      TRes.res ⟨hrF, eF, ri + 3 * n,
        (List.range n).map (fun i =>
          whcSpreadQuery startLoc dirv cfg.WeaponRange ignored rng
            (ri + 3 * i)), ds⟩ ∧
      ds.length ≤ n := by
  intro n
  induction n with
  | zero =>
    intro hr e ri
    refine ⟨hr, e, [], ?_, by simp⟩
    simp [UWeaponHandlingComponent.spreadFire]
  | succ n ih =>
    intro hr e ri
    obtain ⟨b, hr1, e1, hst⟩ := whc_screenTrace_spread_shape cfg w rng
      ignored vpsz pc dp nrm uL uD startLoc dirv hdp hpat hr e ri
    obtain ⟨hrF, eF, ds, hsp, hlen⟩ := ih hr1 e1 (ri + 3)
    refine ⟨hrF, eF,
      UWeaponHandlingComponent.damageActor damageable hr1 ++ ds, ?_, ?_⟩
    · show UWeaponHandlingComponent.spreadFire cfg
        ⟨some vpsz, some pc, dp, nrm, uL, uD⟩ w rng ignored mesh damageable
        (n + 1) hr e ri = _
      rw [UWeaponHandlingComponent.spreadFire,
        UWeaponHandlingComponent.pelletStep, htt]
      simp only [Bool.false_eq_true, if_false, hst]
      rw [hsp]
      have harith : ri + 3 + 3 * n = ri + 3 * (n + 1) := by omega
      rw [harith, map_range_shift
        (fun k => whcSpreadQuery startLoc dirv cfg.WeaponRange ignored rng k)
        n ri]
      rfl
    · have hd : (UWeaponHandlingComponent.damageActor damageable hr1).length
          ≤ 1 := by
        unfold UWeaponHandlingComponent.damageActor
        cases hr1.HitActor with
        | none => simp
        | some a =>
          by_cases hda : damageable a = true
          · simp [hda]
          · simp [hda]
      rw [List.length_append]
      omega

/-- Vector addition is associative (componentwise). -/
theorem FVector_add_assoc (a b c : FVector) :
    a.add (b.add c) = (a.add b).add c := by
  simp only [FVector.add, FVector.mk.injEq]
  omega

/-- C4 (amended): in UWeaponHandlingComponent::ExecuteWeaponFire with the
Spread pattern (raycast type, barrel-trace test off) and a computable aim,
one call produces exactly PallatesPerBullet aim-trace resolutions and at most
that many damage applications; pellet i ends at the unperturbed aim end
offset by the three fresh RandRange draws at stream positions 3i, 3i+1,
3i+2, each within [MinimumSpreadRange, MaximumSpreadRange], and exactly
3·PallatesPerBullet draws are consumed in total (no draw is reused across
pellets or axes). -/
theorem component_spread_fanout (cfg : WHCConfig) (w : World)
    (rng : Nat → Int) (ignored : List Nat) (mesh : MeshModel)
    (damageable : Nat → Bool) (vpsz : Int × Int) (pc : Nat)
    (dp : Nat → Int × Int → Option (FVector × FVector))
    (nrm : FVector → FVector) (uL uD : FVector) (startLoc dirv : FVector)
    (hrIn : FHitResult) (endIn : FVector)
    (hdp : dp pc (vpsz.1 / 2, vpsz.2 / 2) = some (startLoc, dirv))
    (hWT : cfg.WeaponType = EWeaponType.EWT_Raycast)
    (hpat : cfg.ShotPattern = EShotPatternC.ESP_Spread)
    (htt : cfg.bShouldPerformWeaponTraceTest = false)
    (hN : 1 ≤ cfg.PallatesPerBullet)
    (hrng : ∀ k, cfg.MinimumSpreadRange ≤ rng k ∧
      rng k ≤ cfg.MaximumSpreadRange) :
    ∃ hrF eF ds,
      UWeaponHandlingComponent.executeWeaponFire cfg
          ⟨some vpsz, some pc, dp, nrm, uL, uD⟩ w rng ignored mesh damageable
          hrIn endIn 0 =
        TRes.res ⟨hrF, eF, 3 * cfg.PallatesPerBullet,
          (List.range cfg.PallatesPerBullet).map (fun i =>
            whcSpreadQuery startLoc dirv cfg.WeaponRange ignored rng (3 * i)),
          ds⟩ ∧
      ((List.range cfg.PallatesPerBullet).map (fun i =>
        whcSpreadQuery startLoc dirv cfg.WeaponRange ignored rng
          (3 * i))).length = cfg.PallatesPerBullet ∧
      ds.length ≤ cfg.PallatesPerBullet ∧
      (∀ i : Nat,
        (whcSpreadQuery startLoc dirv cfg.WeaponRange ignored rng
            (3 * i)).stop =
          (startLoc.add (dirv.smul cfg.WeaponRange)).add
            ⟨rng (3 * i), rng (3 * i + 1), rng (3 * i + 2)⟩ ∧
        cfg.MinimumSpreadRange ≤ rng (3 * i) ∧
        rng (3 * i) ≤ cfg.MaximumSpreadRange ∧
        cfg.MinimumSpreadRange ≤ rng (3 * i + 1) ∧
        rng (3 * i + 1) ≤ cfg.MaximumSpreadRange ∧
        cfg.MinimumSpreadRange ≤ rng (3 * i + 2) ∧
        rng (3 * i + 2) ≤ cfg.MaximumSpreadRange) := by
  obtain ⟨hrF, eF, ds, hsp, hlen⟩ := whc_spreadFire_shape cfg w rng ignored
    mesh damageable vpsz pc dp nrm uL uD startLoc dirv hdp hpat htt
    cfg.PallatesPerBullet hrIn endIn 0
  simp only [Nat.zero_add] at hsp
  refine ⟨hrF, eF, ds, ?_, by simp, hlen, ?_⟩
  · simp only [UWeaponHandlingComponent.executeWeaponFire, hWT, hpat]
    exact hsp
  · intro i
    refine ⟨?_, (hrng (3 * i)).1, (hrng (3 * i)).2, (hrng (3 * i + 1)).1,
      (hrng (3 * i + 1)).2, (hrng (3 * i + 2)).1, (hrng (3 * i + 2)).2⟩
    show startLoc.add ((dirv.smul cfg.WeaponRange).add
      ⟨rng (3 * i), rng (3 * i + 1), rng (3 * i + 2)⟩) = _
    exact FVector_add_assoc startLoc (dirv.smul cfg.WeaponRange)
      ⟨rng (3 * i), rng (3 * i + 1), rng (3 * i + 2)⟩

/-- Witness for the C4 theorem: two pellets, zero draws (inside [-150,150]),
over an empty world. -/
theorem component_spread_fanout_witness :
    (1 ≤ 2) ∧
    (∃ hrF eF ds,
      UWeaponHandlingComponent.executeWeaponFire
          ⟨EWeaponType.EWT_Raycast, EFiringModeC.EFM_Automatic, 1, 3, 1, 10,
            10, false, EShotPatternC.ESP_Spread, 2, -150, 150⟩
          ⟨some (800, 600), some 1,
            fun _ _ => some (⟨0, 0, 0⟩, ⟨0, 1, 0⟩), fun v => v,
            ⟨0, 0, 0⟩, ⟨0, 0, 0⟩⟩
          (fun _ => none) (fun _ => 0) [7] ⟨some ⟨1, 0, 0⟩⟩ (fun _ => false)
          ⟨false, ⟨0, 0, 0⟩, ⟨0, 0, 0⟩, ⟨0, 0, 0⟩, none⟩ ⟨0, 0, 0⟩ 0 =
        TRes.res ⟨hrF, eF, 3 * 2,
          (List.range 2).map (fun i =>
            whcSpreadQuery ⟨0, 0, 0⟩ ⟨0, 1, 0⟩ 10 [7] (fun _ => 0) (3 * i)),
          ds⟩ ∧
      ((List.range 2).map (fun i =>
        whcSpreadQuery ⟨0, 0, 0⟩ ⟨0, 1, 0⟩ 10 [7] (fun _ => 0)
          (3 * i))).length = 2 ∧
      ds.length ≤ 2 ∧
      (∀ i : Nat,
        (whcSpreadQuery ⟨0, 0, 0⟩ ⟨0, 1, 0⟩ 10 [7] (fun _ => 0)
            (3 * i)).stop =
          ((⟨0, 0, 0⟩ : FVector).add
            ((⟨0, 1, 0⟩ : FVector).smul 10)).add ⟨0, 0, 0⟩ ∧
        (-150 : Int) ≤ 0 ∧ (0 : Int) ≤ 150 ∧ (-150 : Int) ≤ 0 ∧
        (0 : Int) ≤ 150 ∧ (-150 : Int) ≤ 0 ∧ (0 : Int) ≤ 150)) := by
  refine ⟨by decide, ?_⟩
  exact component_spread_fanout _ _ _ _ _ _ _ _ _ _ _ _ _ _ _ _ rfl rfl rfl
    rfl (by decide) (fun k => ⟨by decide, by decide⟩)

/-- C5: when the aim ray hits nothing within the weapon's range, both trace
resolvers report an outcome whose end point is origin + direction * range and
whose hit actor is null: the component ScreenTrace (ESP_Single pattern)
returns false with the TraceEndLocation out-parameter and the hit result's
TraceEnd equal to the full-range end and a null actor, and the weapon-side
ScreenTrace produces the analogous miss record. -/
theorem trace_miss_end_of_range (cfg : WHCConfig) (wd : FWeaponData)
    (w : World) (rng : Nat → Int) (ignored : List Nat) (hrIn : FHitResult)
    (endIn : FVector) (ri : Nat) (vpsz : Int × Int) (pc : Nat)
    (dp : Nat → Int × Int → Option (FVector × FVector))
    (nrm : FVector → FVector) (uL uD : FVector) (startLoc dirv : FVector)
    (hdp : dp pc (vpsz.1 / 2, vpsz.2 / 2) = some (startLoc, dirv))
    (hpat : cfg.ShotPattern = EShotPatternC.ESP_Single)
    (hmissC : w ⟨startLoc, startLoc.add (dirv.smul cfg.WeaponRange), ignored,
      ECollisionChannel.ECC_Visibility⟩ = none)
    (hmissW : w ⟨startLoc, startLoc.add (dirv.smul wd.WeaponRange), ignored,
      ECollisionChannel.ECC_Visibility⟩ = none) :
    UWeaponHandlingComponent.screenTrace cfg
        ⟨some vpsz, some pc, dp, nrm, uL, uD⟩ w rng ignored hrIn endIn ri =
      TRes.res ⟨false,
        ⟨false, ⟨0, 0, 0⟩, startLoc,
          startLoc.add (dirv.smul cfg.WeaponRange), none⟩,
        startLoc.add (dirv.smul cfg.WeaponRange), ri,
        [⟨startLoc, startLoc.add (dirv.smul cfg.WeaponRange), ignored,
          ECollisionChannel.ECC_Visibility⟩]⟩ ∧
    ARayCastWeapon.screenTrace wd ⟨some vpsz, some pc, dp, nrm, uL, uD⟩ w
        (some ⟨some pc⟩) ignored =
      TRes.res (⟨false, ⟨0, 0, 0⟩, startLoc,
          startLoc.add (dirv.smul wd.WeaponRange), none⟩,
        [⟨startLoc, startLoc.add (dirv.smul wd.WeaponRange), ignored,
          ECollisionChannel.ECC_Visibility⟩]) := by
  constructor
  · unfold UWeaponHandlingComponent.screenTrace
    simp only [hdp, hpat, lineTrace, hmissC]
    rfl
  · unfold ARayCastWeapon.screenTrace
    simp only [hdp, lineTrace, hmissW]

/-- Witness for the C5 theorem over an empty world. -/
theorem trace_miss_end_of_range_witness :
    ((fun (_ : TraceQuery) => (none : Option HitData))
        ⟨⟨0, 0, 0⟩, FVector.add ⟨0, 0, 0⟩ (FVector.smul ⟨0, 1, 0⟩ 10), [7],
          ECollisionChannel.ECC_Visibility⟩ = none) ∧
    UWeaponHandlingComponent.screenTrace
        ⟨EWeaponType.EWT_Raycast, EFiringModeC.EFM_Single, 1, 3, 1, 10, 10,
          false, EShotPatternC.ESP_Single, 1, -150, 150⟩
        ⟨some (800, 600), some 1, fun _ _ => some (⟨0, 0, 0⟩, ⟨0, 1, 0⟩),
          fun v => v, ⟨0, 0, 0⟩, ⟨0, 0, 0⟩⟩
        (fun _ => none) (fun _ => 0) [7]
        ⟨false, ⟨0, 0, 0⟩, ⟨0, 0, 0⟩, ⟨0, 0, 0⟩, none⟩ ⟨0, 0, 0⟩ 0 =
      TRes.res ⟨false,
        ⟨false, ⟨0, 0, 0⟩, ⟨0, 0, 0⟩,
          FVector.add ⟨0, 0, 0⟩ (FVector.smul ⟨0, 1, 0⟩ 10), none⟩,
        FVector.add ⟨0, 0, 0⟩ (FVector.smul ⟨0, 1, 0⟩ 10), 0,
        [⟨⟨0, 0, 0⟩, FVector.add ⟨0, 0, 0⟩ (FVector.smul ⟨0, 1, 0⟩ 10), [7],
          ECollisionChannel.ECC_Visibility⟩]⟩ := by
  refine ⟨rfl, ?_⟩
  exact (trace_miss_end_of_range
    ⟨EWeaponType.EWT_Raycast, EFiringModeC.EFM_Single, 1, 3, 1, 10, 10,
      false, EShotPatternC.ESP_Single, 1, -150, 150⟩
    ⟨EFiringModeW.EFM_Single, 1, 3, 1, 10, 10, false,
      EShotPatternW.ESP_Single, 1, -150, 150⟩
    (fun _ => none) (fun _ => 0) [7]
    ⟨false, ⟨0, 0, 0⟩, ⟨0, 0, 0⟩, ⟨0, 0, 0⟩, none⟩ ⟨0, 0, 0⟩ 0 (800, 600) 1
    (fun _ _ => some (⟨0, 0, 0⟩, ⟨0, 1, 0⟩)) (fun v => v) ⟨0, 0, 0⟩ ⟨0, 0, 0⟩
    ⟨0, 0, 0⟩ ⟨0, 1, 0⟩ rfl rfl rfl rfl).1

/-- Every single fire-control step of ARangedWeapon preserves the counter
bound: the burst counter stays strictly below the configured burst size. -/
theorem rw_step_count_lt (wd : FWeaponData) (s : FireControlState)
    (e : FCEvent)
    (hs : s.CurrentBurstShotCount < wd.MaxBurstShotCount) :
    (ARangedWeapon.fcStep wd s e).state.CurrentBurstShotCount <
      wd.MaxBurstShotCount := by
  obtain ⟨fm, fr, mb, bc, wr, dmg, tt, sp, pb, mn, mx⟩ := wd
  cases e with
  | fireTimerExpiry =>
    show (ARangedWeapon.resetShouldFireWeapon s).CurrentBurstShotCount < _
    unfold ARangedWeapon.resetShouldFireWeapon
    split <;> exact hs
  | burstCooldownExpiry =>
    show (ARangedWeapon.resetBurstShotCooldown s).CurrentBurstShotCount < _
    unfold ARangedWeapon.resetBurstShotCooldown
    split <;> exact hs
  | attack =>
    show (ARangedWeapon.launchAttack _ s).state.CurrentBurstShotCount < _
    cases fm with
    | EFM_Single =>
      simp only [ARangedWeapon.launchAttack, ARangedWeapon.executeSingleFire]
      split <;> exact hs
    | EFM_Automatic =>
      simp only [ARangedWeapon.launchAttack,
        ARangedWeapon.executeAutomaticFire]
      split <;> exact hs
    | EFM_Burst =>
      simp only [ARangedWeapon.launchAttack, ARangedWeapon.executeBurstFire]
      have hs2 : s.CurrentBurstShotCount < mb := hs
      split
      · split
        · show (0 : Nat) < mb
          omega
        · next hbc =>
          have hbc2 : ¬ mb ≤ (s.CurrentBurstShotCount + 1) % 256 := hbc
          show (s.CurrentBurstShotCount + 1) % 256 < mb
          omega
      · exact hs

/-- Running any event sequence on ARangedWeapon preserves the counter bound. -/
theorem rw_run_count_lt (wd : FWeaponData) :
    ∀ (es : List FCEvent) (s : FireControlState),
      s.CurrentBurstShotCount < wd.MaxBurstShotCount →
      (ARangedWeapon.fcRun wd s es).CurrentBurstShotCount <
        wd.MaxBurstShotCount := by
  intro es
  induction es with
  | nil => intro s hs; exact hs
  | cons e es ih =>
    intro s hs
    exact ih _ (rw_step_count_lt wd s e hs)

/-- Every single fire-control step of UWeaponHandlingComponent preserves the
counter bound. -/
theorem whc_step_count_lt (cfg : WHCConfig) (s : FireControlState)
    (e : FCEvent)
    (hs : s.CurrentBurstShotCount < cfg.MaxBurstShotCount) :
    (UWeaponHandlingComponent.fcStep cfg s e).state.CurrentBurstShotCount <
      cfg.MaxBurstShotCount := by
  obtain ⟨wt, fm, fr, mb, bc, wr, dmg, tt, sp, pb, mn, mx⟩ := cfg
  cases e with
  | fireTimerExpiry =>
    show (UWeaponHandlingComponent.resetShouldFireWeapon
      s).CurrentBurstShotCount < _
    unfold UWeaponHandlingComponent.resetShouldFireWeapon
    split <;> exact hs
  | burstCooldownExpiry =>
    show (UWeaponHandlingComponent.resetBurstShotCooldown
      s).CurrentBurstShotCount < _
    unfold UWeaponHandlingComponent.resetBurstShotCooldown
    split <;> exact hs
  | attack =>
    show (UWeaponHandlingComponent.fireWeapon _
      s).state.CurrentBurstShotCount < _
    cases fm with
    | EFM_Single =>
      simp only [UWeaponHandlingComponent.fireWeapon]
      exact hs
    | EFM_Automatic =>
      simp only [UWeaponHandlingComponent.fireWeapon]
      split <;> exact hs
    | EFM_Burst =>
      simp only [UWeaponHandlingComponent.fireWeapon]
      have hs2 : s.CurrentBurstShotCount < mb := hs
      split
      · split
        · show (0 : Nat) < mb
          omega
        · next hbc =>
          have hbc2 : ¬ mb ≤ (s.CurrentBurstShotCount + 1) % 4294967296 := hbc
          show (s.CurrentBurstShotCount + 1) % 4294967296 < mb
          omega
      · exact hs

/-- Running any event sequence on UWeaponHandlingComponent preserves the
counter bound. -/
theorem whc_run_count_lt (cfg : WHCConfig) :
    ∀ (es : List FCEvent) (s : FireControlState),
      s.CurrentBurstShotCount < cfg.MaxBurstShotCount →
      (UWeaponHandlingComponent.fcRun cfg s es).CurrentBurstShotCount <
        cfg.MaxBurstShotCount := by
  intro es
  induction es with
  | nil => intro s hs; exact hs
  | cons e es ih =>
    intro s hs
    exact ih _ (whc_step_count_lt cfg s e hs)

/-- C8: given a configured burst size of at least one, the burst shot counter
of both fire-control variants is a natural number that stays strictly below
the burst size before and after every attack request and timer callback
reachable from the reset state. -/
theorem burst_count_invariant (wd : FWeaponData) (cfg : WHCConfig)
    (h1 : 1 ≤ wd.MaxBurstShotCount) (h2 : 1 ≤ cfg.MaxBurstShotCount) :
    ∀ es : List FCEvent,
      (ARangedWeapon.fcRun wd initFireControl es).CurrentBurstShotCount <
        wd.MaxBurstShotCount ∧
      (UWeaponHandlingComponent.fcRun cfg initFireControl
        es).CurrentBurstShotCount < cfg.MaxBurstShotCount := by
  intro es
  exact ⟨rw_run_count_lt wd es initFireControl h1,
    whc_run_count_lt cfg es initFireControl h2⟩

/-- Witness for the C8 theorem: burst size 3, a three-event run. -/
theorem burst_count_invariant_witness :
    (1 ≤ 3) ∧
    (ARangedWeapon.fcRun
      ⟨EFiringModeW.EFM_Burst, 1, 3, 5, 100, 10, false,
        EShotPatternW.ESP_Single, 1, -150, 150⟩ initFireControl
      [FCEvent.attack, FCEvent.fireTimerExpiry,
        FCEvent.attack]).CurrentBurstShotCount < 3 ∧
    (UWeaponHandlingComponent.fcRun
      ⟨EWeaponType.EWT_Raycast, EFiringModeC.EFM_Burst, 1, 3, 5, 100, 10,
        false, EShotPatternC.ESP_Single, 1, -150, 150⟩ initFireControl
      [FCEvent.attack, FCEvent.fireTimerExpiry,
        FCEvent.attack]).CurrentBurstShotCount < 3 := by
  refine ⟨by decide, ?_, ?_⟩
  · exact (burst_count_invariant
      ⟨EFiringModeW.EFM_Burst, 1, 3, 5, 100, 10, false,
        EShotPatternW.ESP_Single, 1, -150, 150⟩
      ⟨EWeaponType.EWT_Raycast, EFiringModeC.EFM_Burst, 1, 3, 5, 100, 10,
        false, EShotPatternC.ESP_Single, 1, -150, 150⟩
      (by decide) (by decide)
      [FCEvent.attack, FCEvent.fireTimerExpiry, FCEvent.attack]).1
  · exact (burst_count_invariant
      ⟨EFiringModeW.EFM_Burst, 1, 3, 5, 100, 10, false,
        EShotPatternW.ESP_Single, 1, -150, 150⟩
      ⟨EWeaponType.EWT_Raycast, EFiringModeC.EFM_Burst, 1, 3, 5, 100, 10,
        false, EShotPatternC.ESP_Single, 1, -150, 150⟩
      (by decide) (by decide)
      [FCEvent.attack, FCEvent.fireTimerExpiry, FCEvent.attack]).2

/-- One fire-control step of ARangedWeapon in Burst mode preserves the
accepted-count abstraction BurstInv, for any event except the cooldown-timer
expiry. -/
theorem rw_burst_inv_step (wd : FWeaponData)
    (hM : wd.FiringMode = EFiringModeW.EFM_Burst)
    (h2 : wd.MaxBurstShotCount ≤ 255) (s : FireControlState) (a : Nat)
    (e : FCEvent) (hne : e ≠ FCEvent.burstCooldownExpiry)
    (hinv : BurstInv wd.MaxBurstShotCount a s) :
    BurstInv wd.MaxBurstShotCount (a + (ARangedWeapon.fcStep wd s e).fired)
      (ARangedWeapon.fcStep wd s e).state := by
  cases e with
  | burstCooldownExpiry => exact absurd rfl hne
  | fireTimerExpiry =>
    show BurstInv _ (a + 0) (ARangedWeapon.resetShouldFireWeapon s)
    rw [Nat.add_zero]
    have hcount : (ARangedWeapon.resetShouldFireWeapon
        s).CurrentBurstShotCount = s.CurrentBurstShotCount := by
      unfold ARangedWeapon.resetShouldFireWeapon
      split <;> rfl
    have hcd : (ARangedWeapon.resetShouldFireWeapon
        s).bShouldBurstShotCooldown = s.bShouldBurstShotCooldown := by
      unfold ARangedWeapon.resetShouldFireWeapon
      split <;> rfl
    rcases hinv with ⟨ha, hc, hb⟩ | ⟨ha, hc, hb⟩
    · exact Or.inl ⟨ha, by rw [hcount, hc], by rw [hcd, hb]⟩
    · exact Or.inr ⟨ha, by rw [hcount, hc], by rw [hcd, hb]⟩
  | attack =>
    show BurstInv _ (a + (ARangedWeapon.launchAttack wd s).fired)
      (ARangedWeapon.launchAttack wd s).state
    simp only [ARangedWeapon.launchAttack, hM,
      ARangedWeapon.executeBurstFire]
    rcases hinv with ⟨ha, hc, hb⟩ | ⟨ha, hc, hb⟩
    · by_cases hr : s.bShouldFireWeapon = true
      · have hguard : (s.bShouldFireWeapon && !s.bShouldBurstShotCooldown)
            = true := by rw [hr, hb]; rfl
        rw [if_pos hguard]
        have hcnum : (s.CurrentBurstShotCount + 1) % 256 = a + 1 := by
          rw [hc]
          exact Nat.mod_eq_of_lt (by omega)
        by_cases hfull : wd.MaxBurstShotCount ≤
            (s.CurrentBurstShotCount + 1) % 256
        · rw [if_pos hfull]
          have hub : wd.MaxBurstShotCount ≤ a + 1 := by rw [← hcnum]; exact hfull
          refine Or.inr ⟨?_, rfl, rfl⟩
          show a + 1 = wd.MaxBurstShotCount
          omega
        · rw [if_neg hfull]
          have hub : ¬ wd.MaxBurstShotCount ≤ a + 1 := by
            rw [← hcnum]; exact hfull
          refine Or.inl ⟨?_, hcnum, hb⟩
          show a + 1 < wd.MaxBurstShotCount
          omega
      · have hrf : s.bShouldFireWeapon = false := by
          revert hr; cases s.bShouldFireWeapon <;> simp
        rw [if_neg (by simp [hrf])]
        rw [Nat.add_zero]
        exact Or.inl ⟨ha, hc, hb⟩
    · rw [if_neg (by simp [hb])]
      rw [Nat.add_zero]
      exact Or.inr ⟨ha, hc, hb⟩

/-- Running any cooldown-expiry-free event sequence on ARangedWeapon in Burst
mode preserves the accepted-count abstraction. -/
theorem rw_burst_inv_run (wd : FWeaponData)
    (hM : wd.FiringMode = EFiringModeW.EFM_Burst)
    (h2 : wd.MaxBurstShotCount ≤ 255) :
    ∀ (es : List FCEvent) (s : FireControlState) (a : Nat),
      (∀ e ∈ es, e ≠ FCEvent.burstCooldownExpiry) →
      BurstInv wd.MaxBurstShotCount a s →
      BurstInv wd.MaxBurstShotCount
        (a + ARangedWeapon.acceptedCount wd s es)
        (ARangedWeapon.fcRun wd s es) := by
  intro es
  induction es with
  | nil =>
    intro s a _ hinv
    simpa [ARangedWeapon.acceptedCount, ARangedWeapon.fcRun] using hinv
  | cons e es ih =>
    intro s a hne hinv
    have hne1 : e ≠ FCEvent.burstCooldownExpiry := hne e (by simp)
    have hstep := rw_burst_inv_step wd hM h2 s a e hne1 hinv
    have hrest := ih (ARangedWeapon.fcStep wd s e).state
      (a + (ARangedWeapon.fcStep wd s e).fired)
      (fun x hx => hne x (by simp [hx])) hstep
    show BurstInv _ (a + ARangedWeapon.acceptedCount wd s (e :: es))
      (ARangedWeapon.fcRun wd s (e :: es))
    simp only [ARangedWeapon.acceptedCount, ARangedWeapon.fcRun]
    have harith : a + ((ARangedWeapon.fcStep wd s e).fired +
        ARangedWeapon.acceptedCount wd (ARangedWeapon.fcStep wd s e).state
          es) =
        (a + (ARangedWeapon.fcStep wd s e).fired) +
          ARangedWeapon.acceptedCount wd
            (ARangedWeapon.fcStep wd s e).state es := by omega
    rw [harith]
    exact hrest

/-- C3: from the reset state of ARangedWeapon in Burst mode (burst size
between 1 and 255, matching the uint8 field), any run without a
cooldown-timer expiry whose accepted attacks number exactly the burst size
ends with the counter reset to 0 and the BurstCooldown flag set, after which
a further attack request is a complete no-op; the accepted attack that
completes a burst (counter + 1 = burst size) schedules exactly one
burst-cooldown timer of the configured cooldown duration (followed by the
fire-rate timer); only the cooldown-timer callback clears the flag, which the
fire-rate callback leaves intact; and the completion and rejection behaviour
of UWeaponHandlingComponent::FireWeapon in Burst mode is identical (uint32
counter). -/
theorem burst_cycle_spec (wd : FWeaponData) (es : List FCEvent)
    (hM : wd.FiringMode = EFiringModeW.EFM_Burst)
    (h1 : 1 ≤ wd.MaxBurstShotCount) (h2 : wd.MaxBurstShotCount ≤ 255)
    (hNo : FCEvent.burstCooldownExpiry ∉ es)
    (hAcc : ARangedWeapon.acceptedCount wd initFireControl es =
      wd.MaxBurstShotCount) :
    (ARangedWeapon.fcRun wd initFireControl es).CurrentBurstShotCount = 0 ∧
    (ARangedWeapon.fcRun wd initFireControl es).bShouldBurstShotCooldown =
      true ∧
    ARangedWeapon.launchAttack wd (ARangedWeapon.fcRun wd initFireControl es)
      = ⟨ARangedWeapon.fcRun wd initFireControl es, 0, []⟩ ∧
    (∀ t : FireControlState, t.bShouldFireWeapon = true →
      t.bShouldBurstShotCooldown = false →
      t.CurrentBurstShotCount + 1 = wd.MaxBurstShotCount →
      ARangedWeapon.launchAttack wd t =
        ⟨⟨false, true, 0⟩, 1,
          [⟨TimerHandleId.WeaponBurstCooldownTimer, wd.BurstShotCooldown⟩,
           ⟨TimerHandleId.WeaponFireTimer, wd.WeaponFireRate⟩]⟩) ∧
    (∀ t : FireControlState, t.bShouldBurstShotCooldown = true →
      ARangedWeapon.launchAttack wd t = ⟨t, 0, []⟩) ∧
    (∀ t : FireControlState,
      (ARangedWeapon.resetBurstShotCooldown t).bShouldBurstShotCooldown =
        false) ∧
    (∀ t : FireControlState, t.bShouldBurstShotCooldown = true →
      (ARangedWeapon.resetShouldFireWeapon t).bShouldBurstShotCooldown =
        true) ∧
    (∀ (cfg : WHCConfig) (t : FireControlState),
      cfg.FiringMode = EFiringModeC.EFM_Burst →
      cfg.MaxBurstShotCount ≤ 4294967295 →
      t.bShouldFireWeapon = true → t.bShouldBurstShotCooldown = false →
      t.CurrentBurstShotCount + 1 = cfg.MaxBurstShotCount →
      UWeaponHandlingComponent.fireWeapon cfg t =
        ⟨⟨false, true, 0⟩, 1,
          [⟨TimerHandleId.WeaponBurstCooldownTimer, cfg.BurstShotCooldown⟩,
           ⟨TimerHandleId.WeaponFireTimer, cfg.WeaponFireRate⟩]⟩) ∧
    (∀ (cfg : WHCConfig) (t : FireControlState),
      cfg.FiringMode = EFiringModeC.EFM_Burst →
      t.bShouldBurstShotCooldown = true →
      UWeaponHandlingComponent.fireWeapon cfg t = ⟨t, 0, []⟩) := by
  have hrej : ∀ t : FireControlState, t.bShouldBurstShotCooldown = true →
      ARangedWeapon.launchAttack wd t = ⟨t, 0, []⟩ := by
    intro t ht
    simp only [ARangedWeapon.launchAttack, hM,
      ARangedWeapon.executeBurstFire]
    rw [if_neg (by simp [ht])]
  have hbase : BurstInv wd.MaxBurstShotCount 0 initFireControl :=
    Or.inl ⟨by omega, rfl, rfl⟩
  have hne1 : ∀ e ∈ es, e ≠ FCEvent.burstCooldownExpiry :=
    fun e he heq => hNo (heq ▸ he)
  have hfin := rw_burst_inv_run wd hM h2 es initFireControl 0 hne1 hbase
  rw [Nat.zero_add, hAcc] at hfin
  have hend : (ARangedWeapon.fcRun wd initFireControl
        es).CurrentBurstShotCount = 0 ∧
      (ARangedWeapon.fcRun wd initFireControl es).bShouldBurstShotCooldown =
        true := by
    rcases hfin with ⟨hlt, _, _⟩ | ⟨_, hcnt, hcd⟩
    · exact absurd hlt (lt_irrefl _)
    · exact ⟨hcnt, hcd⟩
  refine ⟨hend.1, hend.2, hrej _ hend.2, ?_, hrej, ?_, ?_, ?_, ?_⟩
  · intro t h1t h2t h3t
    simp only [ARangedWeapon.launchAttack, hM,
      ARangedWeapon.executeBurstFire]
    rw [if_pos (by rw [h1t, h2t]; rfl)]
    have hcnum : (t.CurrentBurstShotCount + 1) % 256 =
        wd.MaxBurstShotCount := by
      rw [h3t]
      exact Nat.mod_eq_of_lt (by omega)
    rw [if_pos (le_of_eq hcnum.symm)]
  · intro t
    unfold ARangedWeapon.resetBurstShotCooldown
    split
    · rfl
    · next h => simpa using h
  · intro t ht
    unfold ARangedWeapon.resetShouldFireWeapon
    split <;> exact ht
  · intro cfg t hMc hbc h1t h2t h3t
    simp only [UWeaponHandlingComponent.fireWeapon, hMc]
    rw [if_pos (by rw [h1t, h2t]; rfl)]
    have hcnum : (t.CurrentBurstShotCount + 1) % 4294967296 =
        cfg.MaxBurstShotCount := by
      rw [h3t]
      exact Nat.mod_eq_of_lt (by omega)
    rw [if_pos (le_of_eq hcnum.symm)]
  · intro cfg t hMc ht
    simp only [UWeaponHandlingComponent.fireWeapon, hMc]
    rw [if_neg (by simp [ht])]

/-- Witness for the C3 theorem: burst size 2, run attack / fire-timer expiry
/ attack, which accepts exactly two attacks and ends in cooldown. -/
theorem burst_cycle_spec_witness :
    (ARangedWeapon.acceptedCount
      ⟨EFiringModeW.EFM_Burst, 1, 2, 5, 100, 10, false,
        EShotPatternW.ESP_Single, 1, -150, 150⟩ initFireControl
      [FCEvent.attack, FCEvent.fireTimerExpiry, FCEvent.attack] = 2) ∧
    (ARangedWeapon.fcRun
      ⟨EFiringModeW.EFM_Burst, 1, 2, 5, 100, 10, false,
        EShotPatternW.ESP_Single, 1, -150, 150⟩ initFireControl
      [FCEvent.attack, FCEvent.fireTimerExpiry,
        FCEvent.attack]).CurrentBurstShotCount = 0 ∧
    (ARangedWeapon.fcRun
      ⟨EFiringModeW.EFM_Burst, 1, 2, 5, 100, 10, false,
        EShotPatternW.ESP_Single, 1, -150, 150⟩ initFireControl
      [FCEvent.attack, FCEvent.fireTimerExpiry,
        FCEvent.attack]).bShouldBurstShotCooldown = true := by
  refine ⟨by decide, ?_, ?_⟩
  · exact (burst_cycle_spec
      ⟨EFiringModeW.EFM_Burst, 1, 2, 5, 100, 10, false,
        EShotPatternW.ESP_Single, 1, -150, 150⟩
      [FCEvent.attack, FCEvent.fireTimerExpiry, FCEvent.attack] rfl
      (by decide) (by decide) (by decide) (by decide)).1
  · exact (burst_cycle_spec
      ⟨EFiringModeW.EFM_Burst, 1, 2, 5, 100, 10, false,
        EShotPatternW.ESP_Single, 1, -150, 150⟩
      [FCEvent.attack, FCEvent.fireTimerExpiry, FCEvent.attack] rfl
      (by decide) (by decide) (by decide) (by decide)).2.1
